import Mathlib

/-!
Verification of the solver-orchestration engine of the Airfoil-CFD-Tool
backend (`src/main.py`) against its natural-language specification.

The Python code is shallowly embedded: coordinates and numeric values are
modelled by exact rationals (every concrete decimal literal appearing in a
statement below is chosen so that its comparison outcomes against the code's
thresholds coincide with the IEEE-double outcomes of the source), strings by
Lean strings / character lists, exceptions by `Except`, and the external
XFOIL process by an explicit environment value describing what the spawned
process produced (its captured stdout and the pressure-output file, or a
wall-clock timeout).
-/

unseal Rat.add Rat.sub Rat.mul Rat.inv

namespace Airfoil

/-- A 2-D coordinate pair, embedding the Python two-element lists `[x, y]`
produced by `parse_dat_file`. -/
abbrev Point := ℚ × ℚ

/-- x-coordinate of the first point (`lst[0][0]` in the source); 0 on the
empty list, which the source never passes. -/
def fstX : List Point → ℚ
  | [] => 0
  | p :: _ => p.1

/-- y-coordinate of the first point (`lst[0][1]`). -/
def fstY : List Point → ℚ
  | [] => 0
  | p :: _ => p.2

/-- x-coordinate of the last point (`lst[-1][0]`). -/
def lastX (l : List Point) : ℚ :=
  match l.getLast? with
  | some p => p.1
  | none => 0

/-- y-coordinate of the last point (`lst[-1][1]`). -/
def lastY (l : List Point) : ℚ :=
  match l.getLast? with
  | some p => p.2
  | none => 0

/-- Scan for the Lednicer section break, embedding the loop
`for i in range(1, len(data_lines)): if x[i] < 0.01 and x[i-1] > 0.5` of
`detect_and_merge_sections` (src/main.py lines 103-107).  `prev` is
`x[i-1]`, `i` the index of the head of the remaining list. -/
def findBreakAux : ℚ → List Point → ℕ → Option ℕ
  | _, [], _ => none
  | prev, p :: rest, i =>
    if p.1 < mkRat 1 100 ∧ prev > mkRat 1 2 then some i
    else findBreakAux p.1 rest (i + 1)

/-- First index `i ≥ 1` with `x[i] < 0.01` and `x[i-1] > 0.5`, or `none`. -/
def findBreak : List Point → Option ℕ
  | [] => none
  | p :: rest => findBreakAux p.1 rest 1

/-- Embedding of `if upper[0][0] < upper[-1][0]: upper = list(reversed(upper))`
(src/main.py lines 116-117). -/
def condRevUpper (u : List Point) : List Point :=
  if fstX u < lastX u then u.reverse else u

/-- Embedding of `if lower[0][0] > lower[-1][0]: lower = list(reversed(lower))`
(src/main.py lines 119-120). -/
def condRevLower (u : List Point) : List Point :=
  if lastX u < fstX u then u.reverse else u

/-- Index of the first occurrence of the minimum, embedding
`x_coords.index(min(x_coords))`: `bv` is the best value so far, `best` its
index, `i` the index of the head of the remaining list. -/
def idxOfMinAux : ℚ → ℕ → ℕ → List ℚ → ℕ
  | _, best, _, [] => best
  | bv, best, i, q :: rest =>
    if q < bv then idxOfMinAux q i (i + 1) rest
    else idxOfMinAux bv best (i + 1) rest

/-- Python `x_coords.index(min(x_coords))` (0 on the empty list, never reached). -/
def idxOfMin : List ℚ → ℕ
  | [] => 0
  | q :: rest => idxOfMinAux q 0 1 rest

/-- The single-section branch of `detect_and_merge_sections`
(src/main.py lines 124-143): only when the sequence starts AND ends with
x > 0.99 is anything done, namely the whole list is reversed unless the
point after the leading edge has negative y. -/
def singleMerge (l : List Point) : List Point :=
  if mkRat 99 100 < fstX l ∧ mkRat 99 100 < lastX l then
    if idxOfMin (l.map Prod.fst) + 1 < l.length then
      match l.get? (idxOfMin (l.map Prod.fst) + 1) with
      | some p => if p.2 < 0 then l else l.reverse
      | none => l
    else l
  else l

/-- Condition of the final duplicate-trailing-edge removal
(src/main.py line 146): `len(merged) > 1 and abs(merged[0][0] - merged[-1][0])
< 0.001 and abs(merged[0][1] - merged[-1][1]) < 0.001`. -/
def dedupCond (l : List Point) : Prop :=
  1 < l.length ∧ |fstX l - lastX l| < mkRat 1 1000 ∧ |fstY l - lastY l| < mkRat 1 1000

instance (l : List Point) : Decidable (dedupCond l) := by
  unfold dedupCond; infer_instance

/-- Removal `merged = merged[:-1]` applied when first and last point coincide
within 1e-3 (src/main.py lines 145-147). -/
def dropDupEnd (l : List Point) : List Point :=
  if dedupCond l then l.dropLast else l

/-- Embedding of `detect_and_merge_sections` (src/main.py lines 98-150),
the geometry-normalisation function ("GeometryNormalizer" of the spec):
Lednicer two-section merge when a section break is found, otherwise the
single-section handling, followed by duplicate-trailing-edge removal.
The `print` calls of the source are pure logging and are not modelled. -/
def detect_and_merge_sections (l : List Point) : List Point :=
  dropDupEnd
    (match findBreak l with
     | some i => condRevUpper (l.take i) ++ condRevLower (l.drop i)
     | none => singleMerge l)

/-- Strictly increasing x between two points (ascending chordwise order). -/
abbrev XAsc (p q : Point) : Prop := p.1 < q.1

/-- Strictly decreasing x between two points (descending chordwise order). -/
abbrev XDesc (p q : Point) : Prop := q.1 < p.1

/-! ### Concrete geometry inputs used in counterexamples and witnesses -/

/-- A 10-point Lednicer-format input whose two halves share the
leading-edge point `(0, 0)` exactly (upper then lower, each listed
LE→TE as in the Lednicer convention). -/
def exShared : List Point :=
  [(0, 0), (mkRat 1 4, mkRat 1 8), (mkRat 1 2, mkRat 1 4), (mkRat 3 4, mkRat 3 16), (1, mkRat 1 8),
   (0, 0), (mkRat 1 4, -mkRat 1 8), (mkRat 1 2, -mkRat 1 4), (mkRat 3 4, -mkRat 3 16), (1, -mkRat 1 8)]

/-- A 10-point Lednicer-format input with strictly ascending halves and
distinct leading-edge points. -/
def exLednicer : List Point :=
  [(0, 0), (mkRat 1 4, mkRat 1 10), (mkRat 1 2, mkRat 1 5), (mkRat 3 4, mkRat 3 20), (1, mkRat 1 10),
   (mkRat 1 200, -mkRat 1 100), (mkRat 1 4, -mkRat 1 10), (mkRat 1 2, -mkRat 1 5),
   (mkRat 3 4, -mkRat 3 20), (1, -mkRat 1 10)]

/-- A 10-point single-section input that begins at the leading edge
(minimum x) and runs monotonically to the trailing edge. -/
def exLeFirst : List Point :=
  [(0, 0), (mkRat 1 10, mkRat 1 20), (mkRat 1 5, mkRat 2 25), (mkRat 3 10, mkRat 1 10),
   (mkRat 2 5, mkRat 11 100), (mkRat 1 2, mkRat 3 25), (mkRat 3 5, mkRat 3 25),
   (mkRat 7 10, mkRat 11 100), (mkRat 4 5, mkRat 9 100), (1, mkRat 1 20)]

/-- Another single-section leading-edge-first input, used as witness input. -/
def exLeFirstW : List Point :=
  [(0, 0), (mkRat 1 10, mkRat 3 50), (mkRat 1 5, mkRat 9 100), (mkRat 3 10, mkRat 11 100),
   (mkRat 2 5, mkRat 3 25), (mkRat 1 2, mkRat 13 100), (mkRat 3 5, mkRat 3 25),
   (mkRat 7 10, mkRat 11 100), (mkRat 4 5, mkRat 2 25), (1, mkRat 1 25)]

/-- An 11-point input ending with two coincident trailing-edge copies of
the first point: normalisation removes only one of them per application. -/
def exDupTE : List Point :=
  [(1, 0), (0, 0), (mkRat 3 10, mkRat 1 10), (mkRat 2 5, mkRat 11 100), (mkRat 1 2, mkRat 3 25),
   (mkRat 3 5, mkRat 13 100), (mkRat 7 10, mkRat 7 50), (mkRat 4 5, mkRat 3 20), (mkRat 9 10, mkRat 3 20),
   (1, 0), (1, 0)]

/-- An 11-point already-canonical trailing-edge-to-trailing-edge sequence
(upper surface TE→LE, then lower surface LE→TE, lower starting below the
chord). -/
def exCanon : List Point :=
  [(1, mkRat 1 20), (mkRat 4 5, mkRat 1 10), (mkRat 3 5, mkRat 1 8), (mkRat 2 5, mkRat 1 8),
   (mkRat 1 5, mkRat 1 10), (0, 0), (mkRat 1 5, -mkRat 1 10), (mkRat 2 5, -mkRat 1 8),
   (mkRat 3 5, -mkRat 1 8), (mkRat 4 5, -mkRat 1 10), (1, -mkRat 1 20)]

/-! ### Python string primitives -/

/-- Python `\s` / `str.strip()` whitespace (ASCII range, which is all the
solver output and data files contain). -/
def isSpacePy (c : Char) : Bool :=
  c == ' ' || c == '\t' || c == '\n' || c == '\r' || c.toNat == 11 || c.toNat == 12

/-- Python `str.strip()`. -/
def stripWs (cs : List Char) : List Char :=
  ((cs.dropWhile isSpacePy).reverse.dropWhile isSpacePy).reverse

/-- Helper for `splitWs`; `acc` holds the current token reversed. -/
def splitWsAux : List Char → List Char → List (List Char)
  | [], acc => if acc.isEmpty then [] else [acc.reverse]
  | c :: t, acc =>
    if isSpacePy c then
      if acc.isEmpty then splitWsAux t [] else acc.reverse :: splitWsAux t []
    else splitWsAux t (c :: acc)

/-- Python `str.split()` with no argument: split on whitespace runs,
dropping empty tokens. -/
def splitWs (cs : List Char) : List (List Char) := splitWsAux cs []

/-- Python `s in t` for strings (substring containment), as a scan over lists. -/
def containsSub (needle : List Char) : List Char → Bool
  | [] => needle.isEmpty
  | c :: t => needle.isPrefixOf (c :: t) || containsSub needle t

/-- Python `needle in hay` on Lean strings. -/
def containsStr (needle hay : String) : Bool :=
  containsSub needle.toList hay.toList

/-- Python `str.lower()` (ASCII), as a character list. -/
def lowerStr (s : String) : List Char := s.toList.map Char.toLower

/-- Numeric value of a digit string (most significant first). -/
def digitsToNat (cs : List Char) : ℕ :=
  cs.foldl (fun a c => a * 10 + (c.toNat - 48)) 0

/-! ### Python `float()` -/

/-- Result of a successful Python `float()` conversion: a finite value,
a signed infinity, or NaN. -/
inductive PyVal where
  | fin (q : ℚ)
  | pinf
  | ninf
  | nan
deriving DecidableEq, Repr

/-- Negation of a parsed float (applied for a leading minus sign). -/
def PyVal.negate : PyVal → PyVal
  | PyVal.fin q => PyVal.fin (-q)
  | PyVal.pinf => PyVal.ninf
  | PyVal.ninf => PyVal.pinf
  | PyVal.nan => PyVal.nan

/-- Value `mant / 10^scale`, scaled by `10^e` (the parsed exponent). -/
def decScaled (mant : ℕ) (scale : ℕ) (e : ℤ) : ℚ :=
  if 0 ≤ e then mkRat ((mant : ℤ) * ((10 ^ e.toNat : ℕ) : ℤ)) (10 ^ scale)
  else mkRat (mant : ℤ) (10 ^ (scale + e.natAbs))

/-- Exponent part after `e`/`E`: optional sign then at least one digit,
consuming the whole remainder. -/
def expDigits (cs : List Char) : Option ℤ :=
  match cs with
  | '+' :: r => if !r.isEmpty && r.all Char.isDigit then some ((digitsToNat r : ℕ) : ℤ) else none
  | '-' :: r => if !r.isEmpty && r.all Char.isDigit then some (-((digitsToNat r : ℕ) : ℤ)) else none
  | r => if !r.isEmpty && r.all Char.isDigit then some ((digitsToNat r : ℕ) : ℤ) else none

/-- Optional exponent suffix applied to an already-parsed mantissa. -/
def pyExp (mant : ℕ) (scale : ℕ) (rest : List Char) : Option PyVal :=
  match rest with
  | [] => some (PyVal.fin (decScaled mant scale 0))
  | 'e' :: r => (expDigits r).map fun e => PyVal.fin (decScaled mant scale e)
  | 'E' :: r => (expDigits r).map fun e => PyVal.fin (decScaled mant scale e)
  | _ => none

/-- Unsigned body of Python `float()`: `inf`/`infinity`/`nan`
(case-insensitive) or a decimal `D* [. D*] [(e|E) sign? D+]` with at least
one digit in the mantissa.  (Underscore digit grouping, accepted by CPython
inside digit runs, is not modelled; no input in this development uses it.) -/
def pyFloatBody (cs : List Char) : Option PyVal :=
  let low := cs.map Char.toLower
  if low = ['i', 'n', 'f'] ∨ low = ['i', 'n', 'f', 'i', 'n', 'i', 't', 'y'] then some PyVal.pinf
  else if low = ['n', 'a', 'n'] then some PyVal.nan
  else
    let d1 := cs.takeWhile Char.isDigit
    let r1 := cs.dropWhile Char.isDigit
    match r1 with
    | '.' :: r2 =>
      let d2 := r2.takeWhile Char.isDigit
      let r3 := r2.dropWhile Char.isDigit
      if d1.isEmpty && d2.isEmpty then none
      else pyExp (digitsToNat (d1 ++ d2)) d2.length r3
    | _ => if d1.isEmpty then none else pyExp (digitsToNat d1) 0 r1

/-- Python `float(token)` on a whitespace-free token: `none` models a
`ValueError`. -/
def pyFloat (cs : List Char) : Option PyVal :=
  match cs with
  | '+' :: r => pyFloatBody r
  | '-' :: r => (pyFloatBody r).map PyVal.negate
  | _ => pyFloatBody cs

/-! ### `parse_dat_file` -/

/-- Reference to an HTTP error response: `HTTPException(status, detail)`. -/
structure HErr where
  status : ℕ
  detail : String
deriving DecidableEq, Repr

/-- Domain filter of `parse_dat_file` (src/main.py line 79):
`-0.5 <= x <= 1.5 and -1.0 <= y <= 1.0`; a non-finite float fails the
comparison just as in Python. -/
def toRangedPoint : PyVal → PyVal → Option Point
  | PyVal.fin x, PyVal.fin y =>
    if -mkRat 1 2 ≤ x ∧ x ≤ mkRat 3 2 ∧ -1 ≤ y ∧ y ≤ 1 then some (x, y) else none
  | _, _ => none

/-- One line of the data-line loop of `parse_dat_file` (src/main.py lines
66-82): strip, skip blank lines and lines with fewer than two tokens,
convert the first two tokens with `float()` (skip on `ValueError`), and
keep the pair only if it lies in the coordinate domain. -/
def lineToPoint? (s : String) : Option Point :=
  match splitWs (stripWs s.toList) with
  | p0 :: p1 :: _ =>
    match pyFloat p0, pyFloat p1 with
    | some vx, some vy => toRangedPoint vx vy
    | _, _ => none
  | _ => none

/-- The `data_lines` list accumulated by `parse_dat_file`. -/
def validPoints (lines : List String) : List Point :=
  lines.filterMap lineToPoint?

/-- Embedding of `parse_dat_file` (src/main.py lines 57-96) on the file's
lines: fewer than 10 valid in-domain pairs raises HTTP 400, otherwise the
merged geometry is returned.  (File-system errors cannot occur in the
model; the generic `except` wrapper is therefore not reachable.) -/
def parse_dat_file (lines : List String) : Except HErr (List Point) :=
  if (validPoints lines).length < 10 then
    Except.error ⟨400, "Insufficient valid coordinates. Found " ++
      toString (validPoints lines).length ++ " points."⟩
  else Except.ok (detect_and_merge_sections (validPoints lines))

/-! ### Coefficient extraction (`extract_aerodynamic_coefficients`) -/

/-- The regex fragment `\d*\.?\d+` with Python's backtracking semantics:
returns the matched characters and the remainder.  A digit run, optionally
followed by `.` and a further digit run; a lone trailing `.` is not
consumed; `.D+` with no integer part is accepted. -/
def matchNumCore (cs : List Char) : Option (List Char × List Char) :=
  let d1 := cs.takeWhile Char.isDigit
  let r1 := cs.dropWhile Char.isDigit
  match r1 with
  | '.' :: r2 =>
    let d2 := r2.takeWhile Char.isDigit
    let r3 := r2.dropWhile Char.isDigit
    if d2.isEmpty then (if d1.isEmpty then none else some (d1, r1))
    else some (d1 ++ '.' :: d2, r3)
  | _ => if d1.isEmpty then none else some (d1, r1)

/-- The regex group `([-+]?\d*\.?\d+)`. -/
def matchNumber (cs : List Char) : Option (List Char × List Char) :=
  match cs with
  | '+' :: r => (matchNumCore r).map fun g => ('+' :: g.1, g.2)
  | '-' :: r => (matchNumCore r).map fun g => ('-' :: g.1, g.2)
  | _ => matchNumCore cs

/-- Regex `\s*` — drop leading whitespace. -/
def wsDrop (cs : List Char) : List Char := cs.dropWhile isSpacePy

/-- Try the pattern `KEY\s*=\s*([-+]?\d*\.?\d+)` at the current position:
on success return the group characters and the number of characters
consumed by the whole match. -/
def matchKeyAt (key cs : List Char) : Option (List Char × ℕ) :=
  if key.isPrefixOf cs then
    match wsDrop (cs.drop key.length) with
    | '=' :: r2 =>
      match matchNumber (wsDrop r2) with
      | some g => some (g.1, cs.length - g.2.length)
      | none => none
    | _ => none
  else none

/-- Python `re.findall` scan: try the pattern at every position left to right,
resuming after the end of each (non-empty) match.  Returns the start
position and group of every match.  `fuel` bounds the recursion; each step
consumes at least one character, so `length + 1` fuel never runs out. -/
def scanAux (key : List Char) : ℕ → ℕ → List Char → List (ℕ × List Char)
  | 0, _, _ => []
  | Nat.succ fuel, pos, cs =>
    match matchKeyAt key cs with
    | some (g, n) => (pos, g) :: scanAux key fuel (pos + n) (cs.drop n)
    | none =>
      match cs with
      | [] => []
      | _ :: t => scanAux key fuel (pos + 1) t

/-- All matches of `KEY\s*=\s*([-+]?\d*\.?\d+)` in `s`, with positions. -/
def findMatches (key : String) (s : String) : List (ℕ × List Char) :=
  scanAux key.toList (s.toList.length + 1) 0 s.toList

/-- Exact rational value of a matched group token `sign? (D* . D+ | D+)`;
Python's `float()` of the token is the IEEE rounding of this value, a
deterministic function of the token, so which occurrence is bound is
unaffected by the rounding. -/
def ratOfTokCore (cs : List Char) : ℚ :=
  let d1 := cs.takeWhile Char.isDigit
  let r1 := cs.dropWhile Char.isDigit
  match r1 with
  | '.' :: d2 => mkRat ((digitsToNat (d1 ++ d2) : ℕ) : ℤ) (10 ^ d2.length)
  | _ => mkRat ((digitsToNat d1 : ℕ) : ℤ) 1

/-- Signed version of `ratOfTokCore`. -/
def ratOfTok (cs : List Char) : ℚ :=
  match cs with
  | '+' :: r => ratOfTokCore r
  | '-' :: r => -(ratOfTokCore r)
  | _ => ratOfTokCore cs

/-- Values held in the Python `coefficients` dict: floats plus the later
string entries `mode` / `warning`. -/
inductive CoefVal where
  | num (q : ℚ)
  | str (s : String)
deriving DecidableEq, Repr

/-- Python `d[k] = v` on an association list (replace if present, else
append — insertion order preserved as in a Python dict). -/
def setKey (l : List (String × CoefVal)) (k : String) (v : CoefVal) : List (String × CoefVal) :=
  if l.any (fun p => p.1 == k) then l.map (fun p => if p.1 == k then (k, v) else p)
  else l ++ [(k, v)]

/-- One iteration of the pattern loop: bind `key` to `float(matches[-1])`
when the pattern matched at all. -/
def addCoef (s : String) (acc : List (String × CoefVal)) (key : String) : List (String × CoefVal) :=
  match (findMatches key s).getLast? with
  | some m => acc ++ [(key, CoefVal.num (ratOfTok m.2))]
  | none => acc

/-- Embedding of `extract_aerodynamic_coefficients` (src/main.py lines
152-172): for each label CL, CD, CDp, Cm (dict order), find all matches of
`KEY\s*=\s*([-+]?\d*\.?\d+)` and keep the value of the last one. -/
def extract_aerodynamic_coefficients (s : String) : List (String × CoefVal) :=
  addCoef s (addCoef s (addCoef s (addCoef s [] "CL") "CD") "CDp") "Cm"

/-! ### `_run_xfoil_mode` and `run_xfoil_sync` -/

/-- Exceptions escaping `_run_xfoil_mode`: `subprocess.TimeoutExpired` or a
generic `Exception(msg)`. -/
inductive XErr where
  | timeout
  | exn (msg : String)
deriving DecidableEq, Repr

/-- What the external XFOIL process did during one attempt: either the
wall-clock timeout expired, or it ran, producing captured stdout and
(possibly) the pressure-output file with the given lines. -/
inductive Env where
  | timeout
  | ran (stdout : String) (cpFile : Option (List String))
deriving DecidableEq, Repr

/-- The three escalation modes of the execution strategy. -/
inductive Mode where
  | viscousStd
  | viscousSmoothed
  | inviscid
deriving DecidableEq, Repr

/-- A successful solver result: pressure coordinates, pressure values and
the coefficient mapping (with fidelity tag). -/
structure CpResult where
  cp_x : List PyVal
  cp_values : List PyVal
  coefficients : List (String × CoefVal)
deriving DecidableEq, Repr

/-- The convergence-failure test of `_run_xfoil_mode` (src/main.py lines
381-385). -/
def convergenceFailed (out : String) : Bool :=
  containsStr "VISCAL:  Convergence failed" out ||
  containsSub "not converged".toList (lowerStr out) ||
  containsSub "unconverged".toList (lowerStr out)

/-- One line of the CP-file loop of `_run_xfoil_mode` (src/main.py lines
420-432): skip blank lines and lines containing a letter; with at least two
tokens, append `float(parts[0])` to `cp_x` and `float(parts[1])` to
`cp_values`, skipping the line on `ValueError` — note that when the second
conversion fails the first value has ALREADY been appended. -/
def cpLineStep (acc : List PyVal × List PyVal) (s : String) : List PyVal × List PyVal :=
  let clean := stripWs s.toList
  if clean.isEmpty then acc
  else if clean.any Char.isAlpha then acc
  else
    match splitWs clean with
    | p0 :: p1 :: _ =>
      match pyFloat p0 with
      | none => acc
      | some vx =>
        match pyFloat p1 with
        | none => (acc.1 ++ [vx], acc.2)
        | some vy => (acc.1 ++ [vx], acc.2 ++ [vy])
    | _ => acc

/-- The full CP-file parse. -/
def parseCpLines (ls : List String) : List PyVal × List PyVal :=
  ls.foldl cpLineStep ([], [])

/-- Embedding of `_run_xfoil_mode` (src/main.py lines 233-484) given the
behaviour `env` of the spawned process.  `alphaStr` is the decimal
rendering of the angle of attack used inside f-string error messages.
Logging, the panel-count check and the sanity-check prints have no effect
on the returned value and are not modelled. -/
def run_xfoil_mode (alphaStr : String) (viscous : Bool) (env : Env) : Except XErr CpResult :=
  match env with
  | Env.timeout => Except.error XErr.timeout
  | Env.ran out cpf =>
    if convergenceFailed out then
      Except.error (XErr.exn ("Viscous convergence failed at alpha=" ++ alphaStr))
    else
      match cpf with
      | none =>
        Except.error (XErr.exn
          ((if viscous then "VISCOUS" else "INVISCID") ++ " did not generate output file"))
      | some cpLines =>
        let coefs := extract_aerodynamic_coefficients out
        if (coefs.lookup "CL").isNone then
          Except.error (XErr.exn ("No valid aerodynamic coefficients found for alpha=" ++ alphaStr))
        else
          let cps := parseCpLines cpLines
          if cps.1.isEmpty then Except.error (XErr.exn "No pressure data")
          else
            Except.ok ⟨cps.1, cps.2,
              if viscous then setKey coefs "mode" (CoefVal.str "viscous")
              else
                setKey (setKey coefs "mode" (CoefVal.str "inviscid")) "warning"
                  (CoefVal.str "INVISCID MODE - CD is unrealistically low")⟩

/-- Python `str(e)` of an exception: `tmsg` renders `subprocess.TimeoutExpired`. -/
def errMsg (tmsg : String) : XErr → String
  | XErr.timeout => tmsg
  | XErr.exn m => m

/-- The string-matching retry test of `run_xfoil_sync` (src/main.py lines
191-192 and 209-210): `"convergence" in str(e).lower() or "no pressure
data" in str(e).lower()`. -/
def retryable (m : String) : Bool :=
  containsSub "convergence".toList (lowerStr m) ||
  containsSub "no pressure data".toList (lowerStr m)

/-- Strategy 3 of `run_xfoil_sync` (src/main.py lines 227-231): inviscid
attempt; any failure becomes the consolidated message. -/
def attempt3 (alphaStr tmsg : String) (e3 : Env) : Except XErr CpResult :=
  match run_xfoil_mode alphaStr false e3 with
  | Except.ok r => Except.ok r
  | Except.error e =>
    Except.error (XErr.exn ("All strategies failed. Last error: " ++ errMsg tmsg e))

/-- Strategy 2 of `run_xfoil_sync` (src/main.py lines 199-214): viscous
with smoothing; timeout or a retryable message escalates to strategy 3,
anything else re-raises. -/
def continueSmoothed (alphaStr tmsg : String) (e2 e3 : Env) : Except XErr CpResult × List Mode :=
  match run_xfoil_mode alphaStr true e2 with
  | Except.ok r => (Except.ok r, [Mode.viscousStd, Mode.viscousSmoothed])
  | Except.error XErr.timeout =>
    (attempt3 alphaStr tmsg e3, [Mode.viscousStd, Mode.viscousSmoothed, Mode.inviscid])
  | Except.error (XErr.exn m) =>
    if retryable m then
      (attempt3 alphaStr tmsg e3, [Mode.viscousStd, Mode.viscousSmoothed, Mode.inviscid])
    else (Except.error (XErr.exn m), [Mode.viscousStd, Mode.viscousSmoothed])

/-- Embedding of `run_xfoil_sync` (src/main.py lines 174-231): the
three-attempt execution strategy.  `e1`, `e2`, `e3` describe the external
process's behaviour for each attempt; the returned list records the
attempts actually made, in order. -/
def run_xfoil_sync (alphaStr tmsg : String) (e1 e2 e3 : Env) : Except XErr CpResult × List Mode :=
  match run_xfoil_mode alphaStr true e1 with
  | Except.ok r => (Except.ok r, [Mode.viscousStd])
  | Except.error XErr.timeout => continueSmoothed alphaStr tmsg e2 e3
  | Except.error (XErr.exn m) =>
    if retryable m then continueSmoothed alphaStr tmsg e2 e3
    else (Except.error (XErr.exn m), [Mode.viscousStd])

/-! ### `upload_airfoil` -/

/-- A request to the submission endpoint. -/
structure Req where
  reynolds : ℚ
  alpha : ℚ
  filename : String
  fileSize : ℕ
  fileLines : List String

/-- The JSON body of a successful response (the constant `success: true`
field is omitted). -/
structure Resp where
  coords_before : List Point
  coords_after : List Point
  num_points : ℕ
  cp_x : List PyVal
  cp_values : List PyVal
  coefficients : List (String × CoefVal)
deriving DecidableEq, Repr

/-- Python `filename.endswith('.dat')`. -/
def endsWithDat (s : String) : Bool :=
  ['.', 'd', 'a', 't'].isSuffixOf s.toList

/-- Embedding of `upload_airfoil` (src/main.py lines 504-581): input
validation in source order, parse, point-count cap, then the execution
strategy; an exception escaping the strategy is surfaced as HTTP 500 with
`str(e)`.  The second component records which solver attempts were made
(`[]` when the solver is never invoked).  Working-directory creation and
cleanup are filesystem effects with no influence on the response. -/
def upload_airfoil (req : Req) (alphaStr tmsg : String) (e1 e2 e3 : Env) :
    Except HErr Resp × List Mode :=
  if ¬ (10000 ≤ req.reynolds ∧ req.reynolds ≤ 10000000) then
    (Except.error ⟨400, "Reynolds must be 10,000 to 10,000,000"⟩, [])
  else if ¬ (-10 ≤ req.alpha ∧ req.alpha ≤ 20) then
    (Except.error ⟨400, "Alpha must be -10 to 20 degrees"⟩, [])
  else if ¬ endsWithDat req.filename then
    (Except.error ⟨400, "Only .dat files accepted"⟩, [])
  else if 1048576 < req.fileSize then
    (Except.error ⟨400, "File too large (max 1.0MB)"⟩, [])
  else
    match parse_dat_file req.fileLines with
    | Except.error e => (Except.error e, [])
    | Except.ok coords =>
      if 500 < coords.length then
        (Except.error ⟨400, "Too many points (max 500)"⟩, [])
      else
        match run_xfoil_sync alphaStr tmsg e1 e2 e3 with
        | (Except.error e, atts) => (Except.error ⟨500, errMsg tmsg e⟩, atts)
        | (Except.ok r, atts) =>
          (Except.ok ⟨coords, coords, coords.length, r.cp_x, r.cp_values, r.coefficients⟩, atts)

/-! ### Concrete solver environments and requests -/

/-- A run whose stdout carries no coefficient labels but whose pressure
file exists and is valid: `_run_xfoil_mode` raises the
missing-coefficients error on it. -/
def envMissingCL : Env := Env.ran "CP written" (some ["0.1 0.2"])

/-- A fully successful run: coefficients present, pressure file valid. -/
def envGood : Env :=
  Env.ran "CL = 0.5 CD = 0.01 Cm = -0.02" (some ["0.1 0.2", "0.3 0.4"])

/-- A run on which the solver reports a convergence failure. -/
def envConv : Env := Env.ran "VISCAL:  Convergence failed" (some ["0.1 0.2"])

/-- A run whose pressure file contains a row whose first column parses as
a float but whose second column does not (`.` alone), followed by a good
row — the input exposing the non-parallel-array bug. -/
def envBug : Env := Env.ran "CL = 0.5 CD = 0.01" (some ["0.5 .", "0.7 1.25"])

/-- Geometry file lines with only 5 valid coordinate rows. -/
def linesFew : List String :=
  ["NACA TEST", "0.0 0.0", "0.5 0.1", "1.0 0.0", "0.5 -0.1", "0.25 0.05", "junk line"]

/-- Geometry file lines with 11 valid coordinate rows forming a canonical
trailing-edge-to-trailing-edge airfoil. -/
def linesGood : List String :=
  ["AIRFOIL", "1.0 0.05", "0.8 0.1", "0.6 0.12", "0.4 0.12", "0.2 0.1", "0.0 0.0",
   "0.2 -0.1", "0.4 -0.12", "0.6 -0.12", "0.8 -0.1", "1.0 -0.05"]

/-- An under-populated request (5 valid points) with otherwise valid
parameters. -/
def reqFew : Req := ⟨500000, 5, "wing.dat", 100, linesFew⟩

/-- A fully valid request. -/
def reqGood : Req := ⟨500000, 5, "wing.dat", 200, linesGood⟩

/-- The solver result of the all-viscous-failures / inviscid-success
scenario (used to witness the fidelity-tag claim). -/
def inviscidResult : CpResult :=
  match (run_xfoil_sync "5.0" "tm" envConv envConv envGood).1 with
  | Except.ok r => r
  | Except.error _ => ⟨[], [], []⟩

/-- The response of the fully successful upload scenario. -/
def respGood : Resp :=
  match (upload_airfoil reqGood "5.0" "tm" envGood envGood envGood).1 with
  | Except.ok r => r
  | Except.error _ => ⟨[], [], 0, [], [], []⟩

instance {ε α : Type} [DecidableEq ε] [DecidableEq α] : DecidableEq (Except ε α)
  | Except.error a, Except.error b =>
    if h : a = b then isTrue (by rw [h]) else isFalse fun hc => h (Except.error.inj hc)
  | Except.error _, Except.ok _ => isFalse Except.noConfusion
  | Except.ok _, Except.error _ => isFalse Except.noConfusion
  | Except.ok a, Except.ok b =>
    if h : a = b then isTrue (by rw [h]) else isFalse fun hc => h (Except.ok.inj hc)

/-! ### Theorems -/

/-- Helper: the last element reported by `getLast?` is a member. -/
theorem mem_of_getLast?_eq {α : Type} : ∀ {l : List α} {b : α}, l.getLast? = some b → b ∈ l := by
  intro l
  induction l with
  | nil => intro b h; simp at h
  | cons a t ih =>
    intro b h
    cases t with
    | nil => simp at h; simp [h]
    | cons c t' =>
      rw [List.getLast?_cons_cons] at h
      exact List.mem_cons_of_mem a (ih h)

/-- Helper: a nonempty list has a `getLast?`. -/
theorem getLast?_of_ne_nil {α : Type} {l : List α} (h : l ≠ []) : ∃ b, l.getLast? = some b := by
  cases hgl : l.getLast? with
  | some b => exact ⟨b, rfl⟩
  | none => exact absurd (List.getLast?_eq_none_iff.mp hgl) h

/-- Helper: on a strictly x-ascending list of length ≥ 2 the first x is
smaller than the last x. -/
theorem asc_fstX_lt_lastX {a : Point} {t : List Point} (hp : (a :: t).Pairwise XAsc)
    (ht : t ≠ []) : fstX (a :: t) < lastX (a :: t) := by
  obtain ⟨b, hb⟩ := getLast?_of_ne_nil (l := a :: t) (by simp)
  have hb' : t.getLast? = some b := by
    cases t with
    | nil => exact absurd rfl ht
    | cons c t' => rw [List.getLast?_cons_cons] at hb; exact hb
  have hmem : b ∈ t := mem_of_getLast?_eq hb'
  have hrel := (List.pairwise_cons.mp hp).1 b hmem
  show a.1 < lastX (a :: t)
  unfold lastX
  rw [hb]
  exact hrel

/-- Helper: on a strictly x-descending list of length ≥ 2 the last x is
smaller than the first x. -/
theorem desc_lastX_lt_fstX {a : Point} {t : List Point} (hp : (a :: t).Pairwise XDesc)
    (ht : t ≠ []) : lastX (a :: t) < fstX (a :: t) := by
  obtain ⟨b, hb⟩ := getLast?_of_ne_nil (l := a :: t) (by simp)
  have hb' : t.getLast? = some b := by
    cases t with
    | nil => exact absurd rfl ht
    | cons c t' => rw [List.getLast?_cons_cons] at hb; exact hb
  have hmem : b ∈ t := mem_of_getLast?_eq hb'
  have hrel := (List.pairwise_cons.mp hp).1 b hmem
  unfold lastX
  rw [hb]
  exact hrel

/-- Helper: the endpoint-conditional reversal of the upper half produces a
strictly x-descending list whenever the input is strictly x-monotone. -/
theorem condRevUpper_desc (u : List Point) (h : u.Pairwise XAsc ∨ u.Pairwise XDesc) :
    (condRevUpper u).Pairwise XDesc := by
  unfold condRevUpper
  split
  next hlt =>
    rw [List.pairwise_reverse]
    cases h with
    | inl ha => exact ha
    | inr hd =>
      cases u with
      | nil => exact absurd hlt (by simp [fstX, lastX])
      | cons a t =>
        cases t with
        | nil => exact absurd hlt (by simp [fstX, lastX, List.getLast?])
        | cons c t' => exact absurd hlt (not_lt.mpr (le_of_lt (desc_lastX_lt_fstX hd (by simp))))
  next hge =>
    cases h with
    | inr hd => exact hd
    | inl ha =>
      cases u with
      | nil => exact List.Pairwise.nil
      | cons a t =>
        cases t with
        | nil => exact List.pairwise_singleton _ _
        | cons c t' => exact absurd (asc_fstX_lt_lastX ha (by simp)) hge

/-- Helper: the endpoint-conditional reversal of the lower half produces a
strictly x-ascending list whenever the input is strictly x-monotone. -/
theorem condRevLower_asc (u : List Point) (h : u.Pairwise XAsc ∨ u.Pairwise XDesc) :
    (condRevLower u).Pairwise XAsc := by
  unfold condRevLower
  split
  next hlt =>
    rw [List.pairwise_reverse]
    cases h with
    | inr hd => exact hd
    | inl ha =>
      cases u with
      | nil => exact absurd hlt (by simp [fstX, lastX])
      | cons a t =>
        cases t with
        | nil => exact absurd hlt (by simp [fstX, lastX, List.getLast?])
        | cons c t' => exact absurd hlt (not_lt.mpr (le_of_lt (asc_fstX_lt_lastX ha (by simp))))
  next hge =>
    cases h with
    | inl ha => exact ha
    | inr hd =>
      cases u with
      | nil => exact List.Pairwise.nil
      | cons a t =>
        cases t with
        | nil => exact List.pairwise_singleton _ _
        | cons c t' => exact absurd (desc_lastX_lt_fstX hd (by simp)) hge

/-- Helper: conditional reversal preserves length. -/
theorem condRevUpper_length (u : List Point) : (condRevUpper u).length = u.length := by
  unfold condRevUpper; split <;> simp

/-- Helper: conditional reversal preserves length. -/
theorem condRevLower_length (u : List Point) : (condRevLower u).length = u.length := by
  unfold condRevLower; split <;> simp

/-- Helper: bounds of the section-break scan. -/
theorem findBreakAux_bounds :
    ∀ (t : List Point) (prev : ℚ) (i j : ℕ), findBreakAux prev t i = some j →
      i ≤ j ∧ j < i + t.length := by
  intro t
  induction t with
  | nil => intro prev i j h; simp [findBreakAux] at h
  | cons p rest ih =>
    intro prev i j h
    unfold findBreakAux at h
    split at h
    · cases h; simp
    · have := ih p.1 (i + 1) j h
      simp only [List.length_cons]
      omega

/-- Helper: a detected section break lies strictly inside the list. -/
theorem findBreak_bounds {l : List Point} {i : ℕ} (h : findBreak l = some i) :
    1 ≤ i ∧ i < l.length := by
  cases l with
  | nil => simp [findBreak] at h
  | cons p rest =>
    have := findBreakAux_bounds rest p.1 1 i h
    simp only [List.length_cons]
    omega

/-- Helper: taking the length of the left summand of an append. -/
theorem take_append_of_length {α : Type} {l₁ : List α} (l₂ : List α) {n : ℕ}
    (h : l₁.length = n) : (l₁ ++ l₂).take n = l₁ :=
  h ▸ List.take_left l₁ l₂

/-- Helper: dropping the length of the left summand of an append. -/
theorem drop_append_of_length {α : Type} {l₁ : List α} (l₂ : List α) {n : ℕ}
    (h : l₁.length = n) : (l₁ ++ l₂).drop n = l₂ :=
  h ▸ List.drop_left l₁ l₂

/-- C6 (counterexample): on `exShared`, a two-section input whose halves
each start with the shared leading-edge point `(0, 0)` (Lednicer
convention, LE→TE), the merge does NOT drop the duplicate leading-edge
point: the output keeps all `U + L = 10` points and contains TWO
minimum-x points, refuting the claimed single minimum-x point. -/
theorem C6_counterexample :
    findBreak exShared = some 5 ∧
    (exShared.take 5).head? = some (0, 0) ∧
    (exShared.drop 5).head? = some (0, 0) ∧
    (detect_and_merge_sections exShared).length = 10 ∧
    (detect_and_merge_sections exShared).countP (fun p => decide (p.1 = 0)) = 2 ∧
    ∀ p ∈ detect_and_merge_sections exShared, 0 ≤ p.1 := by
  decide

/-- C6 (amended): for a two-section (Lednicer) input with a section break
after `U` points and strictly x-monotone halves, normalisation reorders the
upper half to run from high x to low x and the lower half from low x to
high x, and the output has length `U + L` or `U + L - 1` — the latter case
arising from the duplicate-TRAILING-edge removal (first and last point
coincident within 1e-3), not from dropping a shared leading-edge point,
which is never dropped (see the counterexample). -/
theorem C6_two_section_merge (g : List Point) (U : ℕ)
    (hbrk : findBreak g = some U)
    (hU : (g.take U).Pairwise XAsc ∨ (g.take U).Pairwise XDesc)
    (hL : (g.drop U).Pairwise XAsc ∨ (g.drop U).Pairwise XDesc) :
    ((detect_and_merge_sections g).length = g.length ∨
      (detect_and_merge_sections g).length + 1 = g.length) ∧
    ((detect_and_merge_sections g).take U).Pairwise XDesc ∧
    ((detect_and_merge_sections g).drop U).Pairwise XAsc := by
  obtain ⟨h1U, hUlt⟩ := findBreak_bounds hbrk
  have hlup : (condRevUpper (g.take U)).length = U := by
    rw [condRevUpper_length, List.length_take]
    omega
  have hd : detect_and_merge_sections g =
      dropDupEnd (condRevUpper (g.take U) ++ condRevLower (g.drop U)) := by
    unfold detect_and_merge_sections
    rw [hbrk]
  have hdup := condRevUpper_desc _ hU
  have hdlo := condRevLower_asc _ hL
  have hlolen : (condRevLower (g.drop U)).length = g.length - U := by
    rw [condRevLower_length, List.length_drop]
  have htake : ∀ tail : List Point,
      ((condRevUpper (g.take U) ++ tail).take U) = condRevUpper (g.take U) :=
    fun tail => take_append_of_length tail hlup
  have hdropeq : ∀ tail : List Point,
      ((condRevUpper (g.take U) ++ tail).drop U) = tail :=
    fun tail => drop_append_of_length tail hlup
  unfold dropDupEnd at hd
  by_cases hc : dedupCond (condRevUpper (g.take U) ++ condRevLower (g.drop U))
  · rw [if_pos hc] at hd
    have hlo_ne : condRevLower (g.drop U) ≠ [] := by
      intro hnil
      rw [hnil] at hlolen
      simp at hlolen
      omega
    rw [List.dropLast_append_of_ne_nil _ hlo_ne] at hd
    refine ⟨?_, ?_, ?_⟩
    · right
      rw [hd, List.length_append, hlup, List.length_dropLast, hlolen]
      omega
    · rw [hd, htake]
      exact hdup
    · rw [hd, hdropeq]
      exact List.Pairwise.sublist (List.dropLast_sublist _) hdlo
  · rw [if_neg hc] at hd
    refine ⟨?_, ?_, ?_⟩
    · left
      rw [hd, List.length_append, hlup, hlolen]
      omega
    · rw [hd, htake]
      exact hdup
    · rw [hd, hdropeq]
      exact hdlo

/-- C6 (witness): the amended theorem applied to the concrete Lednicer
input `exLednicer`. -/
theorem C6_witness :
    ((detect_and_merge_sections exLednicer).length = exLednicer.length ∨
      (detect_and_merge_sections exLednicer).length + 1 = exLednicer.length) ∧
    ((detect_and_merge_sections exLednicer).take 5).Pairwise XDesc ∧
    ((detect_and_merge_sections exLednicer).drop 5).Pairwise XAsc :=
  C6_two_section_merge exLednicer 5 (by decide) (Or.inl (by decide)) (Or.inl (by decide))

/-- C7 (counterexample): `exLeFirst` is a single-section input beginning at
the leading edge (its first point has the minimum x); the claimed
split-at-minimum-and-reverse does not happen — normalisation returns the
sequence unchanged, so the output still begins at x = 0 (the leading edge),
not at the trailing edge x = 1. -/
theorem C7_counterexample :
    findBreak exLeFirst = none ∧
    (∀ p ∈ exLeFirst, fstX exLeFirst ≤ p.1) ∧
    detect_and_merge_sections exLeFirst = exLeFirst ∧
    fstX (detect_and_merge_sections exLeFirst) = 0 ∧
    lastX (detect_and_merge_sections exLeFirst) = 1 := by
  decide

/-- C7 (amended): a single-section input (no section break) that begins at
the leading edge — every x at least the first x, and the first x at most
0.99, so the trailing-edge-to-trailing-edge special case cannot apply — is
returned in its original order; at most the final point is removed (the
duplicate-trailing-edge removal).  No split at the minimum-x index and no
reversal of a prefix occurs. -/
theorem C7_single_section_unchanged (g : List Point)
    (hbrk : findBreak g = none)
    (_hLE : ∀ p ∈ g, fstX g ≤ p.1)
    (h99 : fstX g ≤ mkRat 99 100) :
    detect_and_merge_sections g = g ∨ detect_and_merge_sections g = g.dropLast := by
  have hsm : singleMerge g = g := by
    unfold singleMerge
    rw [if_neg]
    intro hcontra
    exact absurd hcontra.1 (not_lt.mpr h99)
  have hd : detect_and_merge_sections g = dropDupEnd g := by
    unfold detect_and_merge_sections
    rw [hbrk, hsm]
  unfold dropDupEnd at hd
  by_cases hc : dedupCond g
  · rw [if_pos hc] at hd
    exact Or.inr hd
  · rw [if_neg hc] at hd
    exact Or.inl hd

/-- C7 (witness): the amended theorem applied to `exLeFirstW`. -/
theorem C7_witness :
    detect_and_merge_sections exLeFirstW = exLeFirstW ∨
    detect_and_merge_sections exLeFirstW = exLeFirstW.dropLast :=
  C7_single_section_unchanged exLeFirstW (by decide) (by decide) (by decide)

/-- C8 (counterexample): normalisation is not idempotent.  On `exDupTE`,
whose trailing edge point `(1, 0)` appears twice at the end coinciding with
the first point, the first application removes one copy and a second
application removes another, so `normalize (normalize g) ≠ normalize g`. -/
theorem C8_counterexample :
    detect_and_merge_sections (detect_and_merge_sections exDupTE) ≠
      detect_and_merge_sections exDupTE := by
  decide

/-- Helper (fixed point of normalisation): if the once-normalised sequence
does not trigger the duplicate-end removal, has its detected halves already
in canonical endpoint order, and — in the no-break trailing-edge-to-
trailing-edge case — has a negative-y point right after the leading edge,
then a second normalisation changes nothing. -/
theorem detect_fixed_point (m : List Point)
    (h1 : ¬ dedupCond m)
    (h2 : ∀ i, findBreak m = some i →
      ¬ fstX (m.take i) < lastX (m.take i) ∧ ¬ lastX (m.drop i) < fstX (m.drop i))
    (h3 : findBreak m = none →
      ¬ (mkRat 99 100 < fstX m ∧ mkRat 99 100 < lastX m) ∨
      (∀ p, m.get? (idxOfMin (m.map Prod.fst) + 1) = some p → p.2 < 0)) :
    detect_and_merge_sections m = m := by
  cases hb : findBreak m with
  | some i =>
    obtain ⟨hu, hl⟩ := h2 i hb
    have hstep : detect_and_merge_sections m =
        dropDupEnd (condRevUpper (m.take i) ++ condRevLower (m.drop i)) := by
      unfold detect_and_merge_sections
      rw [hb]
    rw [hstep]
    unfold condRevUpper condRevLower
    rw [if_neg hu, if_neg hl, List.take_append_drop]
    unfold dropDupEnd
    rw [if_neg h1]
  | none =>
    have hstep : detect_and_merge_sections m = dropDupEnd (singleMerge m) := by
      unfold detect_and_merge_sections
      rw [hb]
    have hsm : singleMerge m = m := by
      unfold singleMerge
      rcases h3 hb with hno | hy
      · rw [if_neg hno]
      · by_cases houter : mkRat 99 100 < fstX m ∧ mkRat 99 100 < lastX m
        · rw [if_pos houter]
          by_cases hidx : idxOfMin (m.map Prod.fst) + 1 < m.length
          · rw [if_pos hidx]
            cases hg : m.get? (idxOfMin (m.map Prod.fst) + 1) with
            | none => rfl
            | some p =>
              show (if p.2 < 0 then m else m.reverse) = m
              rw [if_pos (hy p hg)]
          · rw [if_neg hidx]
        · rw [if_neg houter]
    rw [hstep, hsm]
    unfold dropDupEnd
    rw [if_neg h1]

/-- C8 (amended): normalisation is NOT idempotent in general (see the
counterexample, where a doubled trailing-edge point loses one copy per
application).  It is idempotent for every input `g` whose normalised form
satisfies the fixed-point conditions: its first and last points do not
coincide within 1e-3; any detected section break splits it into halves
already in canonical endpoint order; and in the no-break case with both
end x beyond 0.99, the point after the leading edge has negative y. -/
theorem C8_idempotent_conditional (g : List Point)
    (h1 : ¬ dedupCond (detect_and_merge_sections g))
    (h2 : ∀ i, findBreak (detect_and_merge_sections g) = some i →
      ¬ fstX ((detect_and_merge_sections g).take i) <
          lastX ((detect_and_merge_sections g).take i) ∧
      ¬ lastX ((detect_and_merge_sections g).drop i) <
          fstX ((detect_and_merge_sections g).drop i))
    (h3 : findBreak (detect_and_merge_sections g) = none →
      ¬ (mkRat 99 100 < fstX (detect_and_merge_sections g) ∧
          mkRat 99 100 < lastX (detect_and_merge_sections g)) ∨
      (∀ p, (detect_and_merge_sections g).get?
          (idxOfMin ((detect_and_merge_sections g).map Prod.fst) + 1) = some p → p.2 < 0)) :
    detect_and_merge_sections (detect_and_merge_sections g) =
      detect_and_merge_sections g :=
  detect_fixed_point _ h1 h2 h3

/-- C8 (witness): the amended idempotence applied to the concrete
already-canonical input `exCanon` (whose normalised form is itself). -/
theorem C8_witness :
    detect_and_merge_sections (detect_and_merge_sections exCanon) =
      detect_and_merge_sections exCanon :=
  C8_idempotent_conditional exCanon (by decide)
    (by
      intro i hi
      exact Option.noConfusion
        ((by decide : findBreak (detect_and_merge_sections exCanon) = none).symm.trans hi))
    (by
      intro _
      refine Or.inr fun p hp => ?_
      have h0 : (detect_and_merge_sections exCanon).get?
          (idxOfMin ((detect_and_merge_sections exCanon).map Prod.fst) + 1) =
          some (mkRat 1 5, -mkRat 1 10) := by decide
      rw [h0] at hp
      injection hp with h
      rw [← h]
      decide)

/-- Helper: `lookup` distributes over append. -/
theorem lookup_append_coef (k : String) (l₁ l₂ : List (String × CoefVal)) :
    (l₁ ++ l₂).lookup k =
      (match l₁.lookup k with
       | some v => some v
       | none => l₂.lookup k) := by
  induction l₁ with
  | nil => simp [List.lookup]
  | cons p t ih =>
    cases hkp : k == p.1 <;> simp [List.lookup, hkp, ih]

/-- Helper: lookup misses a list none of whose keys matches. -/
theorem lookup_eq_none_of_any_false (k : String) :
    ∀ l : List (String × CoefVal), l.any (fun p => p.1 == k) = false →
      l.lookup k = none := by
  intro l
  induction l with
  | nil => intro _; rfl
  | cons p t ih =>
    intro h
    simp only [List.any_cons, Bool.or_eq_false_iff] at h
    have hk : (k == p.1) = false := by
      have := h.1
      simp only [beq_eq_false_iff_ne] at this ⊢
      exact fun hc => this hc.symm
    simp [List.lookup, hk, ih h.2]

/-- Helper: the in-place replacement branch of `setKey` binds `k` to `v`. -/
theorem lookup_map_replace (k : String) (v : CoefVal) :
    ∀ l : List (String × CoefVal), l.any (fun p => p.1 == k) = true →
      (l.map fun p => if p.1 == k then (k, v) else p).lookup k = some v := by
  intro l
  induction l with
  | nil => intro h; simp at h
  | cons p t ih =>
    intro h
    rw [List.map_cons]
    cases hp : p.1 == k with
    | true =>
      rw [if_pos rfl]
      simp [List.lookup]
    | false =>
      rw [if_neg Bool.false_ne_true]
      have ht : t.any (fun p => p.1 == k) = true := by
        rw [List.any_cons, hp, Bool.false_or] at h
        exact h
      have hk : (k == p.1) = false := by
        simp only [beq_eq_false_iff_ne] at hp ⊢
        exact fun hc => hp hc.symm
      simp only [List.lookup, hk]
      exact ih ht

/-- Helper: `setKey` binds its key. -/
theorem lookup_setKey_self (l : List (String × CoefVal)) (k : String) (v : CoefVal) :
    (setKey l k v).lookup k = some v := by
  unfold setKey
  split
  next h => exact lookup_map_replace k v l h
  next h =>
    rw [lookup_append_coef,
      lookup_eq_none_of_any_false k l (Bool.eq_false_iff.mpr h)]
    simp [List.lookup]

/-- Helper: the replacement branch leaves other keys untouched. -/
theorem lookup_map_replace_ne (k a : String) (v : CoefVal) (hne : a ≠ k) :
    ∀ l : List (String × CoefVal),
      (l.map fun p => if p.1 == k then (k, v) else p).lookup a = l.lookup a := by
  have hak : (a == k) = false := by simpa using hne
  intro l
  induction l with
  | nil => rfl
  | cons p t ih =>
    rw [List.map_cons]
    cases hp : p.1 == k with
    | true =>
      have hpk : p.1 = k := by simpa using hp
      have hap : (a == p.1) = false := by rw [hpk]; exact hak
      rw [if_pos rfl]
      simp only [List.lookup, hak, hap]
      exact ih
    | false =>
      rw [if_neg Bool.false_ne_true]
      cases hap : a == p.1 with
      | false =>
        simp only [List.lookup, hap]
        exact ih
      | true => simp only [List.lookup, hap]

/-- Helper: `setKey` leaves other keys untouched. -/
theorem lookup_setKey_ne (l : List (String × CoefVal)) (k a : String) (v : CoefVal)
    (hne : a ≠ k) : (setKey l k v).lookup a = l.lookup a := by
  have hak : (a == k) = false := by simpa using hne
  unfold setKey
  split
  next _ => exact lookup_map_replace_ne k a v hne l
  next _ =>
    rw [lookup_append_coef]
    cases hl : l.lookup a <;> simp [List.lookup, hak]

/-- Helper: a successful `_run_xfoil_mode` tags `mode` with `viscous` or
`inviscid` according to the requested mode. -/
theorem run_mode_ok_mode_tag (alphaStr : String) (viscous : Bool) (env : Env) (r : CpResult)
    (h : run_xfoil_mode alphaStr viscous env = Except.ok r) :
    r.coefficients.lookup "mode" =
      some (CoefVal.str (if viscous then "viscous" else "inviscid")) := by
  have hmw : ∀ (l : List (String × CoefVal)) v,
      (setKey l "warning" v).lookup "mode" = l.lookup "mode" :=
    fun l v => lookup_setKey_ne l "warning" "mode" v (by decide)
  cases env with
  | timeout => exact Except.noConfusion h
  | ran out cpf =>
    simp only [run_xfoil_mode] at h
    split at h
    · exact Except.noConfusion h
    · split at h
      · exact Except.noConfusion h
      · split at h
        · exact Except.noConfusion h
        · split at h
          · exact Except.noConfusion h
          · injection h with h
            subst h
            cases viscous <;> simp [lookup_setKey_self, hmw]

/-- C1 (counterexample): when the first (viscous) attempt fails because no
CL key could be extracted (`envMissingCL`), the strategy does NOT advance:
it aborts immediately with that error after a single attempt, even though
the next mode (`envGood`) would have succeeded. -/
theorem C1_counterexample :
    run_xfoil_sync "5.0" "timed out" envMissingCL envGood envGood =
      (Except.error (XErr.exn "No valid aerodynamic coefficients found for alpha=5.0"),
       [Mode.viscousStd]) ∧
    (run_xfoil_mode "5.0" true envGood).toOption.isSome = true := by
  decide

/-- C1 (amended): the strategy advances to the next fallback state only on
timeout or on an error whose lowercased message contains `convergence` or
`no pressure data`; the missing-coefficients message (`No valid aerodynamic
coefficients found for alpha=...`) contains neither, so such a failure
aborts immediately after the first attempt with that same error. -/
theorem C1_nonretryable_aborts (alphaStr tmsg : String) (e1 e2 e3 : Env) (m : String)
    (h1 : run_xfoil_mode alphaStr true e1 = Except.error (XErr.exn m))
    (h2 : retryable m = false) :
    run_xfoil_sync alphaStr tmsg e1 e2 e3 =
      (Except.error (XErr.exn m), [Mode.viscousStd]) := by
  unfold run_xfoil_sync
  rw [h1]
  simp [h2]

/-- C1 (witness): the amended behaviour at the concrete missing-CL run. -/
theorem C1_witness :
    run_xfoil_sync "5.0" "t2" envMissingCL envGood envGood =
      (Except.error (XErr.exn "No valid aerodynamic coefficients found for alpha=5.0"),
       [Mode.viscousStd]) :=
  C1_nonretryable_aborts "5.0" "t2" envMissingCL envGood envGood
    "No valid aerodynamic coefficients found for alpha=5.0" (by decide) (by decide)

/-- C2 (confirmed): the strategy makes at least one and at most three
attempts, always in a prefix of the fixed order viscous-standard,
viscous-smoothed, inviscid; and when all three modes were attempted and
the third failed, the result is the single consolidated failure reporting
the last error. -/
theorem C2_strategy_bounded (alphaStr tmsg : String) (e1 e2 e3 : Env) :
    (run_xfoil_sync alphaStr tmsg e1 e2 e3).2 ≠ [] ∧
    (run_xfoil_sync alphaStr tmsg e1 e2 e3).2 <+:
      [Mode.viscousStd, Mode.viscousSmoothed, Mode.inviscid] ∧
    (run_xfoil_sync alphaStr tmsg e1 e2 e3).2.length ≤ 3 ∧
    (∀ e, run_xfoil_mode alphaStr false e3 = Except.error e →
      (run_xfoil_sync alphaStr tmsg e1 e2 e3).2.length = 3 →
      (run_xfoil_sync alphaStr tmsg e1 e2 e3).1 =
        Except.error (XErr.exn ("All strategies failed. Last error: " ++ errMsg tmsg e))) := by
  have hatt3 : ∀ e, run_xfoil_mode alphaStr false e3 = Except.error e →
      attempt3 alphaStr tmsg e3 =
        Except.error (XErr.exn ("All strategies failed. Last error: " ++ errMsg tmsg e)) := by
    intro e he
    unfold attempt3
    rw [he]
  unfold run_xfoil_sync continueSmoothed
  split
  · exact ⟨by simp, ⟨[Mode.viscousSmoothed, Mode.inviscid], rfl⟩, by simp,
      fun e _ hlen => by simp at hlen⟩
  · split
    · exact ⟨by simp, ⟨[Mode.inviscid], rfl⟩, by simp, fun e _ hlen => by simp at hlen⟩
    · exact ⟨by simp, ⟨[], rfl⟩, by simp, fun e he _ => hatt3 e he⟩
    · split
      · exact ⟨by simp, ⟨[], rfl⟩, by simp, fun e he _ => hatt3 e he⟩
      · exact ⟨by simp, ⟨[Mode.inviscid], rfl⟩, by simp, fun e _ hlen => by simp at hlen⟩
  · split
    · split
      · exact ⟨by simp, ⟨[Mode.inviscid], rfl⟩, by simp, fun e _ hlen => by simp at hlen⟩
      · exact ⟨by simp, ⟨[], rfl⟩, by simp, fun e he _ => hatt3 e he⟩
      · split
        · exact ⟨by simp, ⟨[], rfl⟩, by simp, fun e he _ => hatt3 e he⟩
        · exact ⟨by simp, ⟨[Mode.inviscid], rfl⟩, by simp, fun e _ hlen => by simp at hlen⟩
    · exact ⟨by simp, ⟨[Mode.viscousSmoothed, Mode.inviscid], rfl⟩, by simp,
        fun e _ hlen => by simp at hlen⟩

/-- C2 (witness): all three attempts fail (convergence failure each time);
three attempts are recorded and the consolidated failure reports the last
error. -/
theorem C2_witness :
    (run_xfoil_sync "5.0" "tm" envConv envConv envConv).2 =
      [Mode.viscousStd, Mode.viscousSmoothed, Mode.inviscid] ∧
    (run_xfoil_sync "5.0" "tm" envConv envConv envConv).1 =
      Except.error (XErr.exn ("All strategies failed. Last error: " ++
        errMsg "tm" (XErr.exn "Viscous convergence failed at alpha=5.0"))) :=
  ⟨by decide,
   (C2_strategy_bounded "5.0" "tm" envConv envConv envConv).2.2.2
     (XErr.exn "Viscous convergence failed at alpha=5.0") (by decide) (by decide)⟩

/-- C3 (confirmed): every successful strategy result carries the `mode`
fidelity tag, and it is `inviscid` exactly when the success came from the
third (inviscid fallback) attempt; successes from either viscous attempt
are tagged `viscous`. -/
theorem C3_fidelity_tag (alphaStr tmsg : String) (e1 e2 e3 : Env) (r : CpResult)
    (atts : List Mode)
    (h : run_xfoil_sync alphaStr tmsg e1 e2 e3 = (Except.ok r, atts)) :
    r.coefficients.lookup "mode" =
      some (CoefVal.str (if atts.length = 3 then "inviscid" else "viscous")) := by
  have hatt3 : attempt3 alphaStr tmsg e3 = Except.ok r →
      r.coefficients.lookup "mode" = some (CoefVal.str "inviscid") := by
    intro ha
    unfold attempt3 at ha
    split at ha
    · next r3 hr3 =>
      injection ha with ha
      rw [← ha]
      simpa using run_mode_ok_mode_tag alphaStr false e3 r3 hr3
    · exact Except.noConfusion ha
  unfold run_xfoil_sync continueSmoothed at h
  split at h
  · next r1 hr1 =>
    injection h with h1 h2
    injection h1 with h1
    rw [← h1, ← h2]
    simpa using run_mode_ok_mode_tag alphaStr true e1 r1 hr1
  · split at h
    · next r2 hr2 =>
      injection h with h1 h2
      injection h1 with h1
      rw [← h1, ← h2]
      simpa using run_mode_ok_mode_tag alphaStr true e2 r2 hr2
    · injection h with h1 h2
      rw [← h2]
      simpa using hatt3 h1
    · split at h
      · injection h with h1 h2
        rw [← h2]
        simpa using hatt3 h1
      · injection h with h1 h2
        exact Except.noConfusion h1
  · split at h
    · split at h
      · next r2 hr2 =>
        injection h with h1 h2
        injection h1 with h1
        rw [← h1, ← h2]
        simpa using run_mode_ok_mode_tag alphaStr true e2 r2 hr2
      · injection h with h1 h2
        rw [← h2]
        simpa using hatt3 h1
      · split at h
        · injection h with h1 h2
          rw [← h2]
          simpa using hatt3 h1
        · injection h with h1 h2
          exact Except.noConfusion h1
    · injection h with h1 h2
      exact Except.noConfusion h1

/-- C3 (witness): the fidelity tag of the concrete inviscid-fallback
success (both viscous attempts fail to converge, the inviscid attempt
succeeds) is `inviscid`. -/
theorem C3_witness :
    inviscidResult.coefficients.lookup "mode" = some (CoefVal.str "inviscid") := by
  have h : run_xfoil_sync "5.0" "tm" envConv envConv envGood =
      (Except.ok inviscidResult, [Mode.viscousStd, Mode.viscousSmoothed, Mode.inviscid]) := by
    decide
  simpa using C3_fidelity_tag "5.0" "tm" envConv envConv envGood inviscidResult _ h

/-- Helper: `dropWhile` never lengthens a list. -/
theorem length_dropWhile_le' {α : Type} (p : α → Bool) (l : List α) :
    (l.dropWhile p).length ≤ l.length := by
  induction l with
  | nil => simp [List.dropWhile]
  | cons a t ih =>
    rw [List.dropWhile_cons]
    split
    · exact le_trans ih (by simp)
    · exact le_refl _

/-- Helper: the remainder left by `matchNumCore` is no longer than its
input. -/
theorem matchNumCore_rest_le {cs : List Char} {g : List Char × List Char}
    (h : matchNumCore cs = some g) : g.2.length ≤ cs.length := by
  simp only [matchNumCore] at h
  split at h
  · next r2 heq =>
    split at h
    · split at h
      · exact Option.noConfusion h
      · injection h with h
        rw [← h]
        exact length_dropWhile_le' _ _
    · injection h with h
      rw [← h]
      have h1 : (r2.dropWhile Char.isDigit).length ≤ r2.length := length_dropWhile_le' _ _
      have h2 : ('.' :: r2).length ≤ cs.length := heq ▸ length_dropWhile_le' _ _
      simp only [List.length_cons] at h2
      simpa using by omega
  · split at h
    · exact Option.noConfusion h
    · injection h with h
      rw [← h]
      exact length_dropWhile_le' _ _

/-- Helper: the remainder left by `matchNumber` is no longer than its
input. -/
theorem matchNumber_rest_le {cs : List Char} {g : List Char × List Char}
    (h : matchNumber cs = some g) : g.2.length ≤ cs.length := by
  unfold matchNumber at h
  split at h
  · next r =>
    cases hmc : matchNumCore r with
    | none => rw [hmc] at h; exact Option.noConfusion h
    | some g' =>
      rw [hmc] at h
      simp only [Option.map_some'] at h
      injection h with h
      rw [← h]
      show g'.2.length ≤ _
      exact le_trans (matchNumCore_rest_le hmc) (by simp)
  · next r =>
    cases hmc : matchNumCore r with
    | none => rw [hmc] at h; exact Option.noConfusion h
    | some g' =>
      rw [hmc] at h
      simp only [Option.map_some'] at h
      injection h with h
      rw [← h]
      show g'.2.length ≤ _
      exact le_trans (matchNumCore_rest_le hmc) (by simp)
  · exact matchNumCore_rest_le h

/-- Helper: a successful pattern match consumes at least one and at most
all characters. -/
theorem matchKeyAt_consumed {key cs g : List Char} {n : ℕ}
    (h : matchKeyAt key cs = some (g, n)) : 1 ≤ n ∧ n ≤ cs.length := by
  unfold matchKeyAt at h
  split at h
  · split at h
    · next r2 heq =>
      split at h
      · next g' hnum =>
        injection h with h
        rw [Prod.mk.injEq] at h
        obtain ⟨-, hn⟩ := h
        have f1 : g'.2.length ≤ r2.length :=
          le_trans (matchNumber_rest_le hnum) (length_dropWhile_le' _ r2)
        have f2 : ('=' :: r2).length ≤ (cs.drop key.length).length :=
          heq ▸ length_dropWhile_le' _ _
        simp only [List.length_cons, List.length_drop] at f2
        omega
      · exact Option.noConfusion h
    · exact Option.noConfusion h
  · exact Option.noConfusion h

/-- Helper: one-step unfolding of the scan. -/
theorem scanAux_succ (key : List Char) (fuel pos : ℕ) (cs : List Char) :
    scanAux key (fuel + 1) pos cs =
      (match matchKeyAt key cs with
       | some (g, n) => (pos, g) :: scanAux key fuel (pos + n) (cs.drop n)
       | none =>
         match cs with
         | [] => []
         | _ :: t => scanAux key fuel (pos + 1) t) := rfl

/-- Helper: every match reported by the scan starts at or after the scan
position. -/
theorem scanAux_pos_le (key : List Char) :
    ∀ (fuel pos : ℕ) (cs : List Char) (m : ℕ × List Char),
      m ∈ scanAux key fuel pos cs → pos ≤ m.1 := by
  intro fuel
  induction fuel with
  | zero => intro pos cs m hm; simp [scanAux] at hm
  | succ fuel ih =>
    intro pos cs m hm
    rw [scanAux_succ] at hm
    split at hm
    · next g n hkey =>
      rcases List.mem_cons.mp hm with hm | hm
      · rw [hm]
      · have := ih (pos + n) _ m hm
        omega
    · split at hm
      · simp at hm
      · have := ih (pos + 1) _ m hm
        omega

/-- Helper: the scan reports matches at strictly increasing positions,
i.e. in left-to-right textual order. -/
theorem scanAux_pairwise (key : List Char) :
    ∀ (fuel pos : ℕ) (cs : List Char),
      (scanAux key fuel pos cs).Pairwise (fun a b => a.1 < b.1) := by
  intro fuel
  induction fuel with
  | zero => intro pos cs; simp [scanAux]
  | succ fuel ih =>
    intro pos cs
    rw [scanAux_succ]
    split
    · next g n hkey =>
      rw [List.pairwise_cons]
      refine ⟨fun b hb => ?_, ih _ _⟩
      have h1 := scanAux_pos_le key fuel (pos + n) _ b hb
      have h2 := (matchKeyAt_consumed hkey).1
      omega
    · split
      · exact List.Pairwise.nil
      · exact ih _ _

/-- Helper: `addCoef` does not touch other keys. -/
theorem lookup_addCoef_ne (s : String) (acc : List (String × CoefVal)) (key a : String)
    (hne : a ≠ key) : (addCoef s acc key).lookup a = acc.lookup a := by
  have hak : (a == key) = false := by simpa using hne
  unfold addCoef
  split
  · rw [lookup_append_coef]
    cases hl : acc.lookup a <;> simp [List.lookup, hak]
  · rfl

/-- Helper: when the pattern matched, `addCoef` binds its key to the value
of the LAST match. -/
theorem lookup_addCoef_self (s : String) (acc : List (String × CoefVal)) (key : String)
    (hacc : acc.lookup key = none) (hne : findMatches key s ≠ []) :
    (addCoef s acc key).lookup key =
      (findMatches key s).getLast?.map (fun m => CoefVal.num (ratOfTok m.2)) := by
  unfold addCoef
  split
  · next m hm =>
    rw [hm, lookup_append_coef, hacc]
    simp [List.lookup]
  · next hm => exact absurd (List.getLast?_eq_none_iff.mp hm) hne

/-- C4 (confirmed): whenever a coefficient label (CL, CD, CDp or Cm)
matches more than once in the captured output, the extracted mapping binds
the label to the numeric value of the LAST matching occurrence in the
text: the scan reports matches at strictly increasing positions, and the
bound value is that of the final list entry (the rightmost occurrence),
not any earlier one. -/
theorem C4_last_occurrence (s key : String)
    (hk : key = "CL" ∨ key = "CD" ∨ key = "CDp" ∨ key = "Cm")
    (h2 : 2 ≤ (findMatches key s).length) :
    ((findMatches key s).map Prod.fst).Pairwise (· < ·) ∧
    (extract_aerodynamic_coefficients s).lookup key =
      (findMatches key s).getLast?.map (fun m => CoefVal.num (ratOfTok m.2)) := by
  have hne : findMatches key s ≠ [] := by
    intro hnil
    rw [hnil] at h2
    simp at h2
  constructor
  · rw [List.pairwise_map]
    exact scanAux_pairwise key.toList _ 0 _
  · unfold extract_aerodynamic_coefficients
    rcases hk with h | h | h | h <;> subst h
    · rw [lookup_addCoef_ne _ _ _ _ (by decide), lookup_addCoef_ne _ _ _ _ (by decide),
        lookup_addCoef_ne _ _ _ _ (by decide)]
      exact lookup_addCoef_self s [] "CL" rfl hne
    · rw [lookup_addCoef_ne _ _ _ _ (by decide), lookup_addCoef_ne _ _ _ _ (by decide)]
      exact lookup_addCoef_self s _ "CD"
        (by rw [lookup_addCoef_ne _ _ _ _ (by decide)]; rfl) hne
    · rw [lookup_addCoef_ne _ _ _ _ (by decide)]
      exact lookup_addCoef_self s _ "CDp"
        (by rw [lookup_addCoef_ne _ _ _ _ (by decide),
          lookup_addCoef_ne _ _ _ _ (by decide)]; rfl) hne
    · exact lookup_addCoef_self s _ "Cm"
        (by rw [lookup_addCoef_ne _ _ _ _ (by decide),
          lookup_addCoef_ne _ _ _ _ (by decide),
          lookup_addCoef_ne _ _ _ _ (by decide)]; rfl) hne

/-- C4 (witness): an output in which `CL` matches twice. -/
theorem C4_witness :
    ((findMatches "CL" "CL = 0.5 junk CL = 1.25").map Prod.fst).Pairwise (· < ·) ∧
    (extract_aerodynamic_coefficients "CL = 0.5 junk CL = 1.25").lookup "CL" =
      (findMatches "CL" "CL = 0.5 junk CL = 1.25").getLast?.map
        (fun m => CoefVal.num (ratOfTok m.2)) :=
  C4_last_occurrence "CL = 0.5 junk CL = 1.25" "CL" (Or.inl rfl) (by decide)

/-- C5 (confirmed): a request that passes the parameter, extension and
size validations but whose geometry file yields fewer than 10 valid
in-domain coordinate pairs fails with the insufficient-points error as
HTTP 400, and the solver is never invoked (the attempt list is empty). -/
theorem C5_insufficient_points (req : Req) (alphaStr tmsg : String) (e1 e2 e3 : Env)
    (hre : 10000 ≤ req.reynolds ∧ req.reynolds ≤ 10000000)
    (hal : -10 ≤ req.alpha ∧ req.alpha ≤ 20)
    (hfn : endsWithDat req.filename = true)
    (hsz : req.fileSize ≤ 1048576)
    (hpts : (validPoints req.fileLines).length < 10) :
    upload_airfoil req alphaStr tmsg e1 e2 e3 =
      (Except.error ⟨400, "Insufficient valid coordinates. Found " ++
        toString (validPoints req.fileLines).length ++ " points."⟩, []) := by
  have hp : parse_dat_file req.fileLines =
      Except.error ⟨400, "Insufficient valid coordinates. Found " ++
        toString (validPoints req.fileLines).length ++ " points."⟩ := by
    unfold parse_dat_file
    rw [if_pos hpts]
  unfold upload_airfoil
  rw [if_neg (not_not_intro hre), if_neg (not_not_intro hal),
    if_neg (not_not_intro hfn), if_neg (not_lt.mpr hsz), hp]

/-- C5 (witness): the concrete 5-valid-row file `linesFew`. -/
theorem C5_witness :
    upload_airfoil reqFew "5.0" "tm" envGood envGood envGood =
      (Except.error ⟨400, "Insufficient valid coordinates. Found " ++
        toString (validPoints reqFew.fileLines).length ++ " points."⟩, []) ∧
    toString (validPoints reqFew.fileLines).length = "5" :=
  ⟨C5_insufficient_points reqFew "5.0" "tm" envGood envGood envGood (by decide) (by decide)
    (by decide) (by decide) (by decide), by decide⟩

/-- C9 (code bug): on the valid request `reqGood` with solver behaviour
`envBug` — whose pressure file contains the row `0.5 .`, where the first
column parses as a float but the second does not — the request SUCCEEDS
and the response carries `cp_x` of length 2 but `cp_values` of length 1:
the arrays are not parallel, because `cp_x.append` has already executed
when `float(parts[1])` raises.  The specification (and the frontend, which
zips the two arrays into a DataFrame) requires equal lengths. -/
theorem C9_nonparallel_arrays :
    ((upload_airfoil reqGood "5.0" "tm" envBug envBug envBug).1.toOption.map
      (fun r => (r.cp_x.length, r.cp_values.length))) = some (2, 1) := by
  decide

/-- C10 (confirmed): every successful response returns the identical
point sequence for the pre-normalisation field `coords_before` and the
canonical field `coords_after` — both are the parsed-and-merged
coordinates, so no distinct before/after pair is observable. -/
theorem C10_coords_identical (req : Req) (alphaStr tmsg : String) (e1 e2 e3 : Env)
    (resp : Resp) (atts : List Mode)
    (h : upload_airfoil req alphaStr tmsg e1 e2 e3 = (Except.ok resp, atts)) :
    resp.coords_before = resp.coords_after := by
  unfold upload_airfoil at h
  repeat' split at h
  all_goals
    first
      | (injection h with h1 h2; exact Except.noConfusion h1)
      | (injection h with h1 h2; injection h1 with h1; rw [← h1])

/-- C10 (witness): the concrete successful upload `respGood`. -/
theorem C10_witness : respGood.coords_before = respGood.coords_after := by
  have h : upload_airfoil reqGood "5.0" "tm" envGood envGood envGood =
      (Except.ok respGood, [Mode.viscousStd]) := by decide
  exact C10_coords_identical reqGood "5.0" "tm" envGood envGood envGood respGood _ h

end Airfoil

